import Mathlib

/-!
# Verification of the AURAMED-2D orchestration core

A shallow embedding, in Lean 4, of the pipeline-orchestration core of the
AURAMED-2D repository (`src/agents/base_agent.py`,
`src/agents/segmentation_agent.py`, `src/agents/validation_agent.py`,
`src/agents/reasoning_agent.py`, `src/pipeline/workflow_manager.py`,
`src/pipeline/unified_pipeline.py`, `src/utils/label_extraction.py`),
together with proofs about the embedded operations.

Modelling conventions:
* Python `float` arithmetic is modelled as exact rational arithmetic (`ℚ`).
* Python exceptions are modelled as values: fallible code returns
  `Except String α`, with the exception message as the `String`.
* Python `str` is modelled as Lean `String`/`List Char`; `str.lower()` is
  modelled for the ASCII range (the only range the repository exercises).
* `datetime.now()` timestamps are modelled as explicitly passed `Nat` ticks;
  their values are never interpreted, only their presence (`Option Nat`).
* Python `dict` insertion-ordered mappings are modelled as association lists.
-/

namespace AuraMed

/-- Exception messages (`str(e)` of a raised Python exception). -/
abbrev PyErr := String

/-! ## Character-level helpers (ASCII model of Python string operations) -/

/-- ASCII lowercase letter test (`a`–`z`, codes 97–122). -/
def isLowerAZ (c : Char) : Bool := decide (97 ≤ c.toNat ∧ c.toNat ≤ 122)

/-- ASCII digit test (`0`–`9`, codes 48–57). -/
def isDigit09 (c : Char) : Bool := decide (48 ≤ c.toNat ∧ c.toNat ≤ 57)

/-- ASCII whitespace, the characters matched by `str.strip()` and the regex
class `\s` in the ASCII range: space, `\t`, `\n`, `\r`, `\x0b`, `\x0c`. -/
def isPySpace (c : Char) : Bool :=
  decide (c.toNat = 32 ∨ c.toNat = 9 ∨ c.toNat = 10 ∨
          c.toNat = 13 ∨ c.toNat = 11 ∨ c.toNat = 12)

/-- Underscore test (code 95). -/
def isUnd (c : Char) : Bool := decide (c.toNat = 95)

/-- `str.lower()` on one character, ASCII range (codes 65–90 map up by 32). -/
def pyLowerChar (c : Char) : Char :=
  if 65 ≤ c.toNat ∧ c.toNat ≤ 90 then Char.ofNat (c.toNat + 32) else c

/-- `str.lower()` on a string (ASCII model). -/
def pyLower (s : String) : String := String.mk (s.data.map pyLowerChar)

/-- Drop the longest trailing run of characters satisfying `p`
(the right half of Python `strip`). -/
def dropTrail (p : Char → Bool) : List Char → List Char
  | [] => []
  | c :: cs =>
    let r := dropTrail p cs
    if r.isEmpty && p c then [] else c :: r

/-- Python `str.strip(chars)`: drop the longest leading and trailing runs of
characters satisfying `p`. -/
def pyStrip (p : Char → Bool) (l : List Char) : List Char :=
  dropTrail p (l.dropWhile p)

/-- `str.strip()` (whitespace strip) on a `String`. -/
def pyStripStr (s : String) : String := String.mk (pyStrip isPySpace s.data)

theorem length_dropWhile_le (p : Char → Bool) (l : List Char) :
    (l.dropWhile p).length ≤ l.length := by
  induction l with
  | nil => simp [List.dropWhile]
  | cons c cs ih =>
    simp only [List.dropWhile]
    by_cases h : p c
    · simp only [h, List.length_cons]
      omega
    · simp [h]

/-- Replace every maximal run of characters satisfying `p` by the single
character `rep` (the effect of `re.sub(r"X+", rep, s)` for a character
class `X`). -/
def squashRuns (p : Char → Bool) (rep : Char) : List Char → List Char
  | [] => []
  | c :: cs =>
    if p c then rep :: squashRuns p rep (cs.dropWhile p)
    else c :: squashRuns p rep cs
termination_by l => l.length
decreasing_by
  · simp only [List.length_cons]
    have := length_dropWhile_le p cs
    omega
  · simp

/-- `needle` occurs at the start of `hay`. -/
def isStartOf : List Char → List Char → Bool
  | [], _ => true
  | _ :: _, [] => false
  | n :: ns, h :: hs => n == h && isStartOf ns hs

/-- Python substring containment `needle in hay` on character lists. -/
def hasSub (hay needle : List Char) : Bool :=
  isStartOf needle hay ||
    match hay with
    | [] => false
    | _ :: t => hasSub t needle

/-! ## Confidence Filter (`SegmentationAgent._filter_by_confidence`)

Source (`src/agents/segmentation_agent.py`, lines 199–217): iterates
`for m, l, c in zip(masks, labels, confidences)` and keeps the triples with
`c >= threshold`, appending to three parallel output lists. -/

/-- Python `zip` over three lists: truncates to the shortest input. -/
def zip3 {α β γ : Type} : List α → List β → List γ → List (α × β × γ)
  | a :: as_, b :: bs, c :: cs => (a, b, c) :: zip3 as_ bs cs
  | _, _, _ => []

/-- Result dictionary of `_filter_by_confidence`. -/
structure FilterResult (μ : Type) where
  masks : List μ
  labels : List String
  confidences : List ℚ
deriving DecidableEq, Repr

/-- `SegmentationAgent._filter_by_confidence(masks, labels, confidences,
threshold)`: keep the zipped triples whose confidence meets the threshold,
in order. -/
def filter_by_confidence {μ : Type} (masks : List μ) (labels : List String)
    (confidences : List ℚ) (threshold : ℚ) : FilterResult μ :=
  let kept := (zip3 masks labels confidences).filter (fun t => threshold ≤ t.2.2)
  { masks := kept.map (fun t => t.1)
  , labels := kept.map (fun t => t.2.1)
  , confidences := kept.map (fun t => t.2.2) }

theorem zip3_eq_zip3_take {α β γ : Type} (as_ : List α) (bs : List β) (cs : List γ) :
    zip3 as_ bs cs =
      zip3 (as_.take (min (min as_.length bs.length) cs.length))
           (bs.take (min (min as_.length bs.length) cs.length))
           (cs.take (min (min as_.length bs.length) cs.length)) := by
  induction as_ generalizing bs cs with
  | nil => simp [zip3]
  | cons a as_ ih =>
    cases bs with
    | nil => simp [zip3]
    | cons b bs =>
      cases cs with
      | nil => simp [zip3]
      | cons c cs =>
        simp only [List.length_cons]
        have hmin : min (min (as_.length + 1) (bs.length + 1)) (cs.length + 1) =
            min (min as_.length bs.length) cs.length + 1 := by omega
        rw [hmin]
        simp only [List.take_succ_cons, zip3]
        exact congrArg _ (ih bs cs)

/-- Claim C1, as stated, is false: on mismatched-length inputs the filter
returns normally (Python `zip` silently truncates to the shortest sequence)
instead of raising a contract-violation error.  Concretely, with one mask,
two labels and two confidences the function returns the filtered one-entry
truncation. -/
theorem C1_filter_mismatched_lengths_counterexample :
    ([1].length ≠ ["a", "b"].length) ∧
    filter_by_confidence [1] ["a", "b"] [(9 : ℚ)/10, 9/10] (1/2) =
      { masks := [1], labels := ["a"], confidences := [9/10] } := by
  constructor
  · decide
  · norm_num [filter_by_confidence, zip3, List.filter]

/-- Claim C1 (amended): for all inputs — mismatched lengths included — the
Confidence Filter raises no error; it silently truncates the three sequences
to the length of the shortest one (`zip` semantics) and then keeps, in input
order, exactly the entries whose confidence meets the threshold. -/
theorem C1_filter_truncates_silently {μ : Type} (masks : List μ)
    (labels : List String) (confidences : List ℚ) (threshold : ℚ) :
    filter_by_confidence masks labels confidences threshold =
      filter_by_confidence
        (masks.take (min (min masks.length labels.length) confidences.length))
        (labels.take (min (min masks.length labels.length) confidences.length))
        (confidences.take (min (min masks.length labels.length) confidences.length))
        threshold ∧
    ∀ x ∈ (filter_by_confidence masks labels confidences threshold).confidences,
      threshold ≤ x := by
  constructor
  · unfold filter_by_confidence
    rw [zip3_eq_zip3_take]
  · intro x hx
    unfold filter_by_confidence at hx
    simp only [List.mem_map, List.mem_filter] at hx
    obtain ⟨t, ⟨_, ht⟩, rfl⟩ := hx
    exact of_decide_eq_true ht

/-! ## Label Normalizer (`src/utils/label_extraction.py`)

`normalize_label`: lowercase and whitespace-strip, remove characters outside
`[a-z0-9_\-\s]`, replace whitespace runs by `_`, collapse `_` runs, strip
leading/trailing underscores. -/

/-- Characters kept by `re.sub(r"[^a-z0-9_\-\s]", "", label)`:
lowercase letters, digits, `_` (95), `-` (45) and whitespace. -/
def isAllowedChar (c : Char) : Bool :=
  isLowerAZ c || isDigit09 c || isUnd c || decide (c.toNat = 45) || isPySpace c

/-- `normalize_label` on a character list, stage by stage as in the source. -/
def normCore (l : List Char) : List Char :=
  pyStrip isUnd
    (squashRuns isUnd '_'
      (squashRuns isPySpace '_'
        (List.filter isAllowedChar
          (pyStrip isPySpace
            (l.map pyLowerChar)))))

/-- `normalize_label(label)` from `src/utils/label_extraction.py`. -/
def normalize_label (s : String) : String := String.mk (normCore s.data)

/-- `normalize_labels(labels)`: normalize each label. -/
def normalize_labels (labels : List String) : List String :=
  labels.map normalize_label

/-- Characters that can appear in a `normalize_label` output:
lowercase letters, digits, underscore, hyphen (and no whitespace). -/
def isFinalChar (c : Char) : Bool :=
  isLowerAZ c || isDigit09 c || isUnd c || decide (c.toNat = 45)

/-- No two adjacent characters of `l` both satisfy `p`. -/
def NoAdjP (p : Char → Bool) (l : List Char) : Prop :=
  l.Chain' (fun a b => ¬(p a = true ∧ p b = true))

theorem isUnd_eq_true_iff (c : Char) : isUnd c = true ↔ c = '_' := by
  constructor
  · intro h
    simp only [isUnd, decide_eq_true_eq] at h
    have hv : c.val.toNat = 95 := h
    have : c.val = ('_' : Char).val := by
      apply UInt32.toNat.inj
      simpa using hv
    exact Char.ext this
  · intro h
    subst h
    decide

theorem pyLowerChar_fixed {c : Char} (h : isFinalChar c = true) :
    pyLowerChar c = c := by
  simp only [isFinalChar, isLowerAZ, isDigit09, isUnd, Bool.or_eq_true,
    decide_eq_true_eq] at h
  unfold pyLowerChar
  rw [if_neg]
  rcases h with ((⟨h1, h2⟩ | ⟨h1, h2⟩) | h1) | h1 <;> omega

theorem final_not_space {c : Char} (h : isFinalChar c = true) :
    isPySpace c = false := by
  simp only [isFinalChar, isLowerAZ, isDigit09, isUnd, Bool.or_eq_true,
    decide_eq_true_eq] at h
  simp only [isPySpace, decide_eq_false_iff_not]
  rcases h with ((⟨h1, h2⟩ | ⟨h1, h2⟩) | h1) | h1 <;> omega

theorem final_allowed {c : Char} (h : isFinalChar c = true) :
    isAllowedChar c = true := by
  simp only [isFinalChar, Bool.or_eq_true] at h
  simp only [isAllowedChar, Bool.or_eq_true]
  tauto

theorem allowed_not_space_final {c : Char} (h : isAllowedChar c = true)
    (hs : isPySpace c = false) : isFinalChar c = true := by
  simp only [isAllowedChar, Bool.or_eq_true] at h
  simp only [isFinalChar, Bool.or_eq_true]
  rcases h with ((((h | h) | h) | h) | h)
  · tauto
  · tauto
  · tauto
  · tauto
  · rw [h] at hs
    exact absurd hs (by simp)

theorem map_pyLowerChar_id {l : List Char}
    (h : ∀ c ∈ l, isFinalChar c = true) : l.map pyLowerChar = l := by
  induction l with
  | nil => rfl
  | cons c cs ih =>
    simp only [List.map_cons]
    rw [pyLowerChar_fixed (h c (by simp)), ih (fun d hd => h d (by simp [hd]))]

theorem dropWhile_eq_self_of_none {p : Char → Bool} {l : List Char}
    (h : ∀ c ∈ l, p c = false) : l.dropWhile p = l := by
  cases l with
  | nil => rfl
  | cons c cs => simp [List.dropWhile_cons, h c (by simp)]

theorem dropTrail_eq_self_of_none {p : Char → Bool} {l : List Char}
    (h : ∀ c ∈ l, p c = false) : dropTrail p l = l := by
  induction l with
  | nil => rfl
  | cons c cs ih =>
    simp only [dropTrail]
    rw [ih (fun d hd => h d (by simp [hd]))]
    simp [h c (by simp)]

theorem pyStrip_eq_self_of_none {p : Char → Bool} {l : List Char}
    (h : ∀ c ∈ l, p c = false) : pyStrip p l = l := by
  unfold pyStrip
  rw [dropWhile_eq_self_of_none h, dropTrail_eq_self_of_none h]

theorem squashRuns_eq_self_of_none {p : Char → Bool} {rep : Char} :
    ∀ {l : List Char}, (∀ c ∈ l, p c = false) → squashRuns p rep l = l
  | [], _ => by simp [squashRuns]
  | c :: cs, h => by
    rw [squashRuns, if_neg (by simp [h c (by simp)]),
      squashRuns_eq_self_of_none (fun d hd => h d (by simp [hd]))]

theorem mem_of_mem_dropWhile {p : Char → Bool} {c : Char} :
    ∀ {l : List Char}, c ∈ l.dropWhile p → c ∈ l
  | [], h => h
  | d :: ds, h => by
    rw [List.dropWhile_cons] at h
    by_cases hp : p d
    · simp only [hp, if_pos] at h
      exact List.mem_cons_of_mem d (mem_of_mem_dropWhile h)
    · simpa [hp] using h

theorem mem_of_mem_dropTrail {p : Char → Bool} {c : Char} :
    ∀ {l : List Char}, c ∈ dropTrail p l → c ∈ l
  | d :: ds, h => by
    rw [dropTrail] at h
    by_cases hc : (dropTrail p ds).isEmpty && p d
    · simp [hc] at h
    · simp only [hc, if_neg, Bool.false_eq_true, not_false_eq_true,
        List.mem_cons] at h
      rcases h with h | h
      · simp [h]
      · exact List.mem_cons_of_mem d (mem_of_mem_dropTrail h)

theorem mem_of_mem_pyStrip {p : Char → Bool} {c : Char} {l : List Char}
    (h : c ∈ pyStrip p l) : c ∈ l :=
  mem_of_mem_dropWhile (mem_of_mem_dropTrail h)

theorem squashRuns_mem {p : Char → Bool} {rep c : Char} :
    ∀ {l : List Char}, c ∈ squashRuns p rep l →
      c = rep ∨ (c ∈ l ∧ p c = false)
  | [], h => by simp [squashRuns] at h
  | d :: ds, h => by
    rw [squashRuns] at h
    by_cases hp : p d
    · simp only [hp, if_pos, List.mem_cons] at h
      rcases h with h | h
      · exact Or.inl h
      · rcases squashRuns_mem h with h | ⟨h1, h2⟩
        · exact Or.inl h
        · exact Or.inr ⟨List.mem_cons_of_mem d (mem_of_mem_dropWhile h1), h2⟩
    · simp only [hp, if_neg, Bool.false_eq_true, not_false_eq_true,
        List.mem_cons] at h
      rcases h with h | h
      · subst h
        exact Or.inr ⟨by simp, by simpa using hp⟩
      · rcases squashRuns_mem h with h | ⟨h1, h2⟩
        · exact Or.inl h
        · exact Or.inr ⟨List.mem_cons_of_mem d h1, h2⟩
termination_by l => l.length
decreasing_by
  · simp only [List.length_cons]
    have := length_dropWhile_le p ds
    omega
  · simp

theorem dropWhile_head_false {p : Char → Bool} :
    ∀ {l : List Char} {d : Char} {ds : List Char},
      l.dropWhile p = d :: ds → p d = false
  | [], _, _, h => by simp [List.dropWhile] at h
  | c :: cs, d, ds, h => by
    rw [List.dropWhile_cons] at h
    by_cases hp : p c
    · exact dropWhile_head_false (by simpa [hp] using h)
    · rw [if_neg (by simp [hp])] at h
      cases h
      simpa using hp

theorem dropWhile_head?_false {p : Char → Bool} {l : List Char} {d : Char}
    (h : (l.dropWhile p).head? = some d) : p d = false := by
  cases hm : l.dropWhile p with
  | nil => rw [hm] at h; simp at h
  | cons e es =>
    rw [hm] at h
    simp only [List.head?_cons, Option.some.injEq] at h
    subst h
    exact dropWhile_head_false hm

theorem dropTrail_head? {p : Char → Bool} {m : List Char} {d : Char}
    (h : (dropTrail p m).head? = some d) : m.head? = some d := by
  cases m with
  | nil => simp [dropTrail] at h
  | cons e es =>
    rw [dropTrail] at h
    by_cases hc : (dropTrail p es).isEmpty && p e
    · simp [hc] at h
    · rw [if_neg (by simp_all)] at h
      simpa using h

theorem noAdjP_tail {p : Char → Bool} {c : Char} {cs : List Char}
    (h : NoAdjP p (c :: cs)) : NoAdjP p cs := by
  unfold NoAdjP at *
  exact h.tail

theorem noAdj_squashRuns {p : Char → Bool} {rep : Char} (hrep : p rep = true) :
    ∀ (l : List Char), NoAdjP p (squashRuns p rep l)
  | [] => by simp [squashRuns, NoAdjP]
  | c :: cs => by
    rw [squashRuns]
    by_cases hp : p c
    · rw [if_pos hp]
      rw [NoAdjP, List.chain'_cons']
      refine ⟨?_, noAdj_squashRuns hrep (cs.dropWhile p)⟩
      intro b hb
      cases hm : cs.dropWhile p with
      | nil => rw [hm] at hb; simp [squashRuns] at hb
      | cons e es =>
        have hpe : p e = false := dropWhile_head_false hm
        rw [hm, squashRuns, if_neg (by simp [hpe])] at hb
        simp only [List.head?_cons, Option.mem_def, Option.some.injEq] at hb
        subst hb
        rintro ⟨-, hb2⟩
        rw [hpe] at hb2
        cases hb2
    · rw [if_neg hp]
      rw [NoAdjP, List.chain'_cons']
      refine ⟨?_, noAdj_squashRuns hrep cs⟩
      intro b _
      rintro ⟨h1, -⟩
      rw [h1] at hp
      exact hp rfl
termination_by l => l.length
decreasing_by
  · simp only [List.length_cons]
    have := length_dropWhile_le p cs
    omega
  · simp

theorem noAdj_dropWhile {q p : Char → Bool} :
    ∀ {l : List Char}, NoAdjP p l → NoAdjP p (l.dropWhile q)
  | [], h => h
  | c :: cs, h => by
    rw [List.dropWhile_cons]
    by_cases hq : q c
    · rw [if_pos hq]
      exact noAdj_dropWhile (noAdjP_tail h)
    · rw [if_neg hq]
      exact h

theorem noAdj_dropTrail {q p : Char → Bool} :
    ∀ {l : List Char}, NoAdjP p l → NoAdjP p (dropTrail q l)
  | [], h => h
  | c :: cs, h => by
    rw [dropTrail]
    by_cases hc : (dropTrail q cs).isEmpty && q c
    · rw [if_pos hc]
      simp [NoAdjP]
    · rw [if_neg hc]
      rw [NoAdjP, List.chain'_cons']
      refine ⟨?_, noAdj_dropTrail (noAdjP_tail h)⟩
      intro b hb
      have hb' : cs.head? = some b := dropTrail_head? (by simpa using hb)
      have := (List.chain'_cons'.mp h).1 b (by simpa using hb')
      exact this

theorem squash_eq_self_of_noAdj {p : Char → Bool} {rep : Char}
    (hpr : ∀ c, p c = true → c = rep) :
    ∀ {l : List Char}, NoAdjP p l → squashRuns p rep l = l
  | [], _ => by simp [squashRuns]
  | c :: cs, h => by
    rw [squashRuns]
    by_cases hp : p c
    · rw [if_pos hp]
      have hdw : cs.dropWhile p = cs := by
        cases cs with
        | nil => rfl
        | cons d ds =>
          have hd : p d = false := by
            have hcd := (List.chain'_cons'.mp h).1 d (by simp)
            by_contra hcon
            exact hcd ⟨hp, by simpa using hcon⟩
          rw [List.dropWhile_cons, if_neg (by simp [hd])]
      rw [hdw, squash_eq_self_of_noAdj hpr (noAdjP_tail h), hpr c hp]
    · rw [if_neg hp]
      rw [squash_eq_self_of_noAdj hpr (noAdjP_tail h)]

theorem dropWhile_eq_self_of_head {p : Char → Bool} {l : List Char}
    (h : ∀ d, l.head? = some d → p d = false) : l.dropWhile p = l := by
  cases l with
  | nil => rfl
  | cons c cs => rw [List.dropWhile_cons, if_neg (by simp [h c (by simp)])]

theorem dropTrail_eq_self_of_last {p : Char → Bool} :
    ∀ {l : List Char}, (∀ d, l.getLast? = some d → p d = false) →
      dropTrail p l = l
  | [], _ => rfl
  | c :: cs, h => by
    cases cs with
    | nil =>
      have hc : p c = false := h c (by simp)
      simp [dropTrail, hc]
    | cons d ds =>
      have hrec : dropTrail p (d :: ds) = d :: ds :=
        dropTrail_eq_self_of_last (fun e he => h e (by
          rw [List.getLast?_cons_cons]; exact he))
      rw [dropTrail, hrec]
      simp

theorem dropTrail_last_false {p : Char → Bool} :
    ∀ {l : List Char} {d : Char},
      (dropTrail p l).getLast? = some d → p d = false
  | [], _, h => by simp [dropTrail] at h
  | c :: cs, d, h => by
    rw [dropTrail] at h
    by_cases hc : (dropTrail p cs).isEmpty && p c
    · rw [if_pos hc] at h
      simp at h
    · rw [if_neg hc] at h
      cases hm : dropTrail p cs with
      | nil =>
        rw [hm] at h
        simp only [List.getLast?_singleton, Option.some.injEq] at h
        subst h
        rw [hm] at hc
        simpa using hc
      | cons e es =>
        rw [hm, List.getLast?_cons_cons] at h
        exact dropTrail_last_false (l := cs) (by rw [hm]; exact h)

theorem pyStrip_head_false {p : Char → Bool} {l : List Char} {d : Char}
    (h : (pyStrip p l).head? = some d) : p d = false :=
  dropWhile_head?_false (dropTrail_head? h)

theorem pyStrip_last_false {p : Char → Bool} {l : List Char} {d : Char}
    (h : (pyStrip p l).getLast? = some d) : p d = false :=
  dropTrail_last_false h

theorem pyStrip_eq_self_of_ends {p : Char → Bool} {l : List Char}
    (hh : ∀ d, l.head? = some d → p d = false)
    (hl : ∀ d, l.getLast? = some d → p d = false) : pyStrip p l = l := by
  unfold pyStrip
  rw [dropWhile_eq_self_of_head hh, dropTrail_eq_self_of_last hl]

theorem normCore_chars {l : List Char} :
    ∀ c ∈ normCore l, isFinalChar c = true := by
  intro c hc
  unfold normCore at hc
  have h1 := mem_of_mem_pyStrip hc
  rcases squashRuns_mem h1 with rfl | ⟨h2, _⟩
  · decide
  · rcases squashRuns_mem h2 with rfl | ⟨h3, hs⟩
    · decide
    · exact allowed_not_space_final (List.mem_filter.mp h3).2 hs

theorem normCore_noAdj (l : List Char) : NoAdjP isUnd (normCore l) := by
  unfold normCore pyStrip
  exact noAdj_dropTrail (noAdj_dropWhile (noAdj_squashRuns (by decide) _))

theorem normCore_idem (l : List Char) : normCore (normCore l) = normCore l := by
  have hch := @normCore_chars l
  conv_lhs => rw [normCore]
  rw [map_pyLowerChar_id hch,
      pyStrip_eq_self_of_none (fun c hc => final_not_space (hch c hc)),
      List.filter_eq_self.mpr (fun c hc => final_allowed (hch c hc)),
      squashRuns_eq_self_of_none (fun c hc => final_not_space (hch c hc)),
      squash_eq_self_of_noAdj (fun c h => (isUnd_eq_true_iff c).mp h)
        (normCore_noAdj l)]
  exact pyStrip_eq_self_of_ends
    (fun d hd => pyStrip_head_false (by rw [normCore] at hd; exact hd))
    (fun d hd => pyStrip_last_false (by rw [normCore] at hd; exact hd))

/-- Claim C8: the label normalizer is idempotent — for every input string
`x`, `normalize_label (normalize_label x) = normalize_label x`. -/
theorem C8_normalize_label_idempotent (s : String) :
    normalize_label (normalize_label s) = normalize_label s := by
  unfold normalize_label
  exact congrArg String.mk (normCore_idem s.data)

/-! ## Agent output validation (`BaseAgent.validate`, `src/agents/base_agent.py`)

The structural check sees the stage output only through `isinstance(output,
dict)` and `key not in output`.  We model that view: `dict` carries the key
set; `nondict` models a non-`dict` value through its Python membership test
(for a non-iterable value, `key not in output` would itself raise a
`TypeError`; inside `execute` both shapes end in the same error path, see
below). -/

/-- The shape of a stage `process` output as seen by `validate`. -/
inductive PyView where
  | dict (keys : List String)
  | nondict (member : String → Bool)

/-- Python `key in output`. -/
def viewMember : PyView → String → Bool
  | .dict keys, k => keys.contains k
  | .nondict member, k => member k

/-- The Validation Report returned by `BaseAgent.validate`. -/
structure VReport where
  is_valid : Bool
  errors : List String
  warnings : List String
  confidence : ℚ

/-- `f"Missing required key: {key}"`. -/
def missingMsg (key : String) : String := "Missing required key: " ++ key

/-- One iteration of the required-key loop in `BaseAgent.validate`. -/
def validateStep (output : PyView) (acc : List String × ℚ) (key : String) :
    List String × ℚ :=
  if viewMember output key then acc
  else (acc.1 ++ [missingMsg key], max 0 (acc.2 - 1/5))

/-- Initial `(errors, confidence)` accumulator of `BaseAgent.validate`:
`errors = []`, `confidence = 1.0`, except that a non-`dict` output first
appends `"Output must be a dictionary"` and sets confidence to `0.0`. -/
def validateBase : PyView → List String × ℚ
  | .dict _ => ([], 1)
  | .nondict _ => (["Output must be a dictionary"], 0)

/-- The `(errors, confidence)` accumulator of `BaseAgent.validate` after the
required-key loop. -/
def validateFold (output : PyView) (required : List String) :
    List String × ℚ :=
  required.foldl (validateStep output) (validateBase output)

/-- `BaseAgent.validate(output)` with the agent's required output keys. -/
def validate (output : PyView) (required : List String) : VReport :=
  { is_valid := decide ((validateFold output required).1 = [])
  , errors := (validateFold output required).1
  , warnings := []
  , confidence := (validateFold output required).2 }

/-- Iterated confidence penalty `confidence = max(0.0, confidence - 0.2)`. -/
def iterPen : ℕ → ℚ → ℚ
  | 0, c => c
  | n + 1, c => iterPen n (max 0 (c - 1/5))

theorem foldl_validateStep (output : PyView) (required : List String) :
    ∀ (errs : List String) (c : ℚ),
      required.foldl (validateStep output) (errs, c) =
        (errs ++ (required.filter (fun k => !(viewMember output k))).map missingMsg,
         iterPen (required.filter (fun k => !(viewMember output k))).length c) := by
  induction required with
  | nil => intro errs c; simp [iterPen]
  | cons k ks ih =>
    intro errs c
    simp only [List.foldl_cons, List.filter_cons]
    by_cases hk : viewMember output k
    · rw [show validateStep output (errs, c) k = (errs, c) by
        simp [validateStep, hk]]
      rw [ih errs c]
      simp [hk]
    · rw [show validateStep output (errs, c) k =
          (errs ++ [missingMsg k], max 0 (c - 1/5)) by
        simp [validateStep, hk]]
      rw [ih (errs ++ [missingMsg k]) (max 0 (c - 1/5))]
      simp only [hk, Bool.not_false, if_pos, List.map_cons, List.length_cons,
        List.append_assoc, List.singleton_append, Prod.mk.injEq]
      exact ⟨trivial, rfl⟩

theorem iterPen_eq (n : ℕ) : ∀ c : ℚ, 0 ≤ c →
    iterPen n c = max 0 (c - n * (1/5)) := by
  induction n with
  | zero =>
    intro c hc
    simp only [iterPen, Nat.cast_zero, zero_mul, sub_zero]
    exact (max_eq_right hc).symm
  | succ n ih =>
    intro c hc
    rw [show iterPen (n + 1) c = iterPen n (max 0 (c - 1/5)) from rfl,
      ih _ (le_max_left 0 _)]
    have hn0 : (0:ℚ) ≤ (n : ℚ) * (1/5) := by positivity
    rcases le_or_lt (1/5 : ℚ) c with h | h
    · have hin : max 0 (c - 1/5) = c - 1/5 := max_eq_right (by linarith)
      rw [hin]
      congr 1
      push_cast
      ring
    · have hin : max 0 (c - 1/5) = 0 := max_eq_left (by linarith)
      rw [hin]
      have hL : max 0 ((0:ℚ) - (n : ℚ) * (1/5)) = 0 :=
        max_eq_left (by linarith)
      have hR : max 0 (c - ((n + 1 : ℕ) : ℚ) * (1/5)) = 0 :=
        max_eq_left (by push_cast; linarith)
      rw [hL, hR]

theorem validateFold_dict (keys required : List String) :
    validateFold (.dict keys) required =
      ((required.filter (fun k => !(keys.contains k))).map missingMsg,
       iterPen (required.filter (fun k => !(keys.contains k))).length 1) := by
  unfold validateFold validateBase
  rw [foldl_validateStep]
  simp [viewMember]

theorem validateFold_nondict (member : String → Bool) (required : List String) :
    (validateFold (.nondict member) required).1 =
      "Output must be a dictionary" ::
        (required.filter (fun k => !(member k))).map missingMsg := by
  unfold validateFold validateBase
  rw [foldl_validateStep]
  simp [viewMember]

/-- Claim C6: for every mapping output and declared required keys,
`validate` returns confidence `max(0, 1 - 0.2·missing)` and `is_valid`
is false exactly when a required key is missing; a non-mapping output also
forces `is_valid = false`; in particular one missing key yields
`is_valid = false` and confidence `0.8`. -/
theorem C6_validate_confidence_penalty (keys required : List String) :
    ((validate (.dict keys) required).confidence =
        max 0 (1 - ((required.filter (fun k => !(keys.contains k))).length : ℚ)
          * (1/5)) ∧
      ((validate (.dict keys) required).is_valid = false ↔
        (required.filter (fun k => !(keys.contains k))).length ≠ 0)) ∧
    (∀ (member : String → Bool) (req2 : List String),
        (validate (.nondict member) req2).is_valid = false) ∧
    validate (.dict ["a"]) ["a", "b"] =
      { is_valid := false, errors := ["Missing required key: b"],
        warnings := [], confidence := 4/5 } := by
  refine ⟨⟨?_, ?_⟩, ?_, ?_⟩
  · show (validateFold (.dict keys) required).2 = _
    rw [validateFold_dict]
    exact iterPen_eq _ 1 (by norm_num)
  · show decide ((validateFold (.dict keys) required).1 = []) = false ↔ _
    rw [validateFold_dict]
    simp only [decide_eq_false_iff_not, List.map_eq_nil_iff, ne_eq,
      List.length_eq_zero]
  · intro member req2
    show decide ((validateFold (.nondict member) req2).1 = []) = false
    rw [validateFold_nondict]
    simp
  · unfold validate
    rw [validateFold_dict]
    have h1 : (["a", "b"].filter (fun k => !(["a"].contains k))) = ["b"] := by
      decide
    rw [h1]
    simp only [List.map_cons, List.map_nil, List.length_cons, List.length_nil,
      VReport.mk.injEq]
    refine ⟨by simp [missingMsg], by simp [missingMsg], trivial, ?_⟩
    show iterPen 1 1 = 4/5
    rw [show iterPen 1 1 = max 0 (1 - 1/5 : ℚ) from rfl]
    norm_num

/-! ## Validation stage (`ValidationAgent.process`,
`src/agents/validation_agent.py`)

`process` lowercases the report's findings and impression, concatenates them
with a space, then for each segmentation label appends an omission warning
and subtracts `0.1` from the confidence when the lowercased label is not a
substring of that text; knowledge-graph validators (external collaborators)
only contribute to `errors`/`is_valid`. -/

/-- Output dictionary of `ValidationAgent.process`. -/
structure ValOutput where
  is_valid : Bool
  warnings : List String
  errors : List String
  confidence : ℚ

/-- Result of one knowledge-graph validator's `validate(report)` call
(external collaborator). -/
structure KGResult where
  is_valid : Bool
  errors : List String

/-- `f"Omission: '{label}' detected in image but not mentioned in report."` -/
def omissionMsg (label : String) : String :=
  "Omission: '" ++ label ++ "' detected in image but not mentioned in report."

/-- `report_text = findings.lower() + " " + impression.lower()`. -/
def reportTextOf (findings impression : String) : List Char :=
  (pyLower findings).data ++ ' ' :: (pyLower impression).data

/-- `label.lower() not in report_text`. -/
def labelAbsent (text : List Char) (label : String) : Bool :=
  !(hasSub text (pyLower label).data)

/-- `ValidationAgent.process` on
`{report: {findings, impression}, labels}`, with the loaded knowledge-graph
validators' results passed in as values. -/
def validation_process (findings impression : String) (labels : List String)
    (validators : List KGResult) : ValOutput :=
  let text := reportTextOf findings impression
  let lab := labels.foldl
    (fun (acc : List String × ℚ) label =>
      if labelAbsent text label then (acc.1 ++ [omissionMsg label], acc.2 - 1/10)
      else acc) ([], 1)
  let kg := validators.foldl
    (fun (acc : List String × Bool) r =>
      if r.is_valid then acc else (acc.1 ++ r.errors, false)) ([], true)
  { is_valid := kg.2, warnings := lab.1, errors := kg.1, confidence := lab.2 }

theorem foldl_omissions (text : List Char) (labels : List String) :
    ∀ (ws : List String) (c : ℚ),
      labels.foldl
        (fun (acc : List String × ℚ) label =>
          if labelAbsent text label then
            (acc.1 ++ [omissionMsg label], acc.2 - 1/10)
          else acc) (ws, c) =
        (ws ++ (labels.filter (labelAbsent text)).map omissionMsg,
         c - ((labels.filter (labelAbsent text)).length : ℚ) * (1/10)) := by
  induction labels with
  | nil => intro ws c; simp
  | cons label ls ih =>
    intro ws c
    simp only [List.foldl_cons, List.filter_cons]
    by_cases hl : labelAbsent text label
    · simp only [hl, if_pos]
      rw [ih (ws ++ [omissionMsg label]) (c - 1/10)]
      simp only [hl, if_pos, List.map_cons, List.length_cons,
        List.append_assoc, List.singleton_append, Prod.mk.injEq]
      refine ⟨trivial, ?_⟩
      push_cast
      ring
    · simp only [hl, Bool.false_eq_true, not_false_eq_true, if_neg]
      rw [ih ws c]

/-- Claim C7: the validation stage penalizes confidence by `0.1` per
segmentation label that is not a case-insensitive substring of the report's
findings+impression text, appending one omission warning per absent label;
with labels `["left lung", "right lung"]` and a report containing
"left lung" but omitting "right lung", exactly one omission warning is
produced and the confidence is `0.9`. -/
theorem C7_validation_label_omission_penalty
    (findings impression : String) (labels : List String)
    (validators : List KGResult) :
    ((validation_process findings impression labels validators).warnings =
        (labels.filter
          (labelAbsent (reportTextOf findings impression))).map omissionMsg ∧
      (validation_process findings impression labels validators).confidence =
        1 - ((labels.filter
          (labelAbsent (reportTextOf findings impression))).length : ℚ)
          * (1/10)) ∧
    ((validation_process "The left lung is clear."
        "No acute cardiopulmonary process."
        ["left lung", "right lung"] []).warnings =
      ["Omission: 'right lung' detected in image but not mentioned in report."] ∧
     (validation_process "The left lung is clear."
        "No acute cardiopulmonary process."
        ["left lung", "right lung"] []).confidence = 9/10) := by
  have habs : (["left lung", "right lung"].filter
      (labelAbsent (reportTextOf "The left lung is clear."
        "No acute cardiopulmonary process."))) = ["right lung"] := by decide
  refine ⟨⟨?_, ?_⟩, ?_, ?_⟩
  · simp only [validation_process]
    rw [foldl_omissions]
    simp
  · simp only [validation_process]
    rw [foldl_omissions]
  · simp only [validation_process]
    rw [foldl_omissions, habs]
    simp [omissionMsg]
  · simp only [validation_process]
    rw [foldl_omissions, habs]
    norm_num

/-! ## Agent Execution Wrapper (`BaseAgent.execute`, `src/agents/base_agent.py`)

`execute` sets `status = "processing"` and clears `last_error`, runs
`process` and `validate` inside a `try`, merges a metadata block into the
output and returns it; any exception is caught, recorded (status `error`,
`last_error`, one history entry) and turned into a metadata-only result.
Timestamps, durations and the error traceback are not modelled (they are
never branched on). -/

/-- Agent lifecycle status. -/
inductive AgentStatus where
  | initialized
  | processing
  | completed
  | error
deriving DecidableEq, Repr

/-- One `processing_history` entry: the recorded outcome (`"success"` or
`"error"`) and, on failure, the error message. -/
structure HistEntry where
  outcome : String
  error : Option String
deriving DecidableEq, Repr

/-- The mutable state of a `BaseAgent`: `status`, `last_error`,
`processing_history`. -/
structure AgentState where
  status : AgentStatus
  last_error : Option String
  history : List HistEntry
deriving DecidableEq, Repr

/-- The `_metadata` block of an execution result. -/
structure Meta where
  agent_name : String
  status : String
  error : Option String
  validation : Option VReport

/-- An execution result: the stage output dictionary (absent on the error
path, where the result contains only `_metadata`) plus the metadata block. -/
structure ExecResult (α : Type) where
  output : Option α
  meta : Meta

/-- Agent state as set by `BaseAgent.__init__`. -/
def initState : AgentState :=
  { status := .initialized, last_error := none, history := [] }

/-- `BaseAgent.execute(input)`, for a stage whose `process` is `proc` and
whose output is seen by `validate` through `view`.  The transient
`status = "processing"` assignment at the top of `execute` is observable in
`runOps` traces below. -/
def execute {ι α : Type} (name : String) (view : α → PyView)
    (required : List String) (proc : ι → Except PyErr α)
    (st : AgentState) (input : ι) : AgentState × ExecResult α :=
  match proc input with
  | .error e =>
      ({ status := .error, last_error := some e,
         history := st.history ++ [⟨"error", some e⟩] },
       { output := none,
         meta := { agent_name := name, status := "error", error := some e,
                   validation := none } })
  | .ok out =>
    match view out with
    | .nondict _ =>
        -- In the source, `result['_metadata'] = {...}` on a non-dict
        -- output raises a `TypeError` (as may `key not in output` inside
        -- `validate` for a non-iterable output); the handler then builds
        -- the same error-shaped result.
        ({ status := .error, last_error := some "TypeError",
           history := st.history ++ [⟨"error", some "TypeError"⟩] },
         { output := none,
           meta := { agent_name := name, status := "error",
                     error := some "TypeError", validation := none } })
    | .dict keys =>
        ({ status := .completed, last_error := none,
           history := st.history ++ [⟨"success", none⟩] },
         { output := some out,
           meta := { agent_name := name,
                     status := if (validate (.dict keys) required).is_valid
                               then "success" else "validation_failed",
                     error := none,
                     validation := some (validate (.dict keys) required) } })

/-- `BaseAgent.reset()`: status back to `initialized`, error cleared,
history emptied (configuration untouched). -/
def reset (_st : AgentState) : AgentState :=
  { status := .initialized, last_error := none, history := [] }

/-- Claim C3: if `process(input)` raises, `execute(input)` does not raise —
it returns a result containing only the metadata block (no stage output),
with metadata status `"error"` and the error message set, and it appends
exactly one history entry; moreover every invocation, success or failure,
appends exactly one history entry. -/
theorem C3_execute_error_isolation {ι α : Type} (name : String)
    (view : α → PyView) (required : List String)
    (proc : ι → Except PyErr α) (st : AgentState) (input : ι) (e : PyErr)
    (h : proc input = .error e) :
    (execute name view required proc st input).2.output = none ∧
    (execute name view required proc st input).2.meta.status = "error" ∧
    (execute name view required proc st input).2.meta.error = some e ∧
    (execute name view required proc st input).1.history =
      st.history ++ [⟨"error", some e⟩] ∧
    (∀ (proc2 : ι → Except PyErr α) (st2 : AgentState) (input2 : ι),
      (execute name view required proc2 st2 input2).1.history.length =
        st2.history.length + 1) := by
  refine ⟨by simp [execute, h], by simp [execute, h], by simp [execute, h],
    by simp [execute, h], ?_⟩
  intro proc2 st2 input2
  cases hp : proc2 input2 with
  | error e2 => simp [execute, hp]
  | ok out => cases hv : view out <;> simp [execute, hp, hv]

/-- Witness for C3 at a concrete failing stage. -/
theorem C3_execute_error_isolation_witness :
    (execute "stage" (fun _ : Unit => PyView.dict []) []
        (fun _ : Unit => (Except.error "boom" : Except PyErr Unit))
        initState ()).2.output = none ∧
    (execute "stage" (fun _ : Unit => PyView.dict []) []
        (fun _ : Unit => (Except.error "boom" : Except PyErr Unit))
        initState ()).2.meta.status = "error" ∧
    (execute "stage" (fun _ : Unit => PyView.dict []) []
        (fun _ : Unit => (Except.error "boom" : Except PyErr Unit))
        initState ()).2.meta.error = some "boom" ∧
    (execute "stage" (fun _ : Unit => PyView.dict []) []
        (fun _ : Unit => (Except.error "boom" : Except PyErr Unit))
        initState ()).1.history =
      initState.history ++ [⟨"error", some "boom"⟩] ∧
    (∀ (proc2 : Unit → Except PyErr Unit) (st2 : AgentState) (input2 : Unit),
      (execute "stage" (fun _ : Unit => PyView.dict []) [] proc2 st2
          input2).1.history.length = st2.history.length + 1) :=
  C3_execute_error_isolation "stage" (fun _ => PyView.dict []) []
    (fun _ => .error "boom") initState () "boom" rfl

/-! ### Agent status transitions (claim C9)

The observable `status` assignments of a sequence of `execute`/`reset`
calls, starting from a freshly constructed agent. -/

/-- One call on an agent: `execute(input)` or `reset()`. -/
inductive AgentOp (ι : Type) where
  | exec (input : ι)
  | reset

/-- Run a call sequence from `st`; also return the sequence of `status`
values assigned during the calls, in order (`execute` assigns `processing`
on entry and `completed`/`error` on exit; `reset` assigns `initialized`). -/
def runOps {ι α : Type} (name : String) (view : α → PyView)
    (required : List String) (proc : ι → Except PyErr α)
    (st : AgentState) : List (AgentOp ι) → AgentState × List AgentStatus
  | [] => (st, [])
  | .exec input :: ops =>
      ((runOps name view required proc
          (execute name view required proc st input).1 ops).1,
       .processing :: (execute name view required proc st input).1.status ::
         (runOps name view required proc
           (execute name view required proc st input).1 ops).2)
  | .reset :: ops =>
      ((runOps name view required proc (reset st) ops).1,
       .initialized :: (runOps name view required proc (reset st) ops).2)

/-- The status trace of a call sequence on a fresh agent: the initial
`initialized` followed by every status assignment. -/
def statusTrace {ι α : Type} (name : String) (view : α → PyView)
    (required : List String) (proc : ι → Except PyErr α)
    (ops : List (AgentOp ι)) : List AgentStatus :=
  .initialized :: (runOps name view required proc initState ops).2

/-- Adjacent pairs of a list. -/
def adjPairs {σ : Type} : List σ → List (σ × σ)
  | a :: b :: r => (a, b) :: adjPairs (b :: r)
  | _ => []

/-- The transition relation claimed by the spec invariant:
`initialized → processing → {completed | error}`, plus `reset()` taking any
status back to `initialized`. -/
def claimAllowed : AgentStatus → AgentStatus → Bool
  | _, .initialized => true
  | .initialized, .processing => true
  | .processing, .completed => true
  | .processing, .error => true
  | _, _ => false

/-- The transition relation the code actually obeys: as claimed, and in
addition `execute` may be re-invoked on an agent whose previous run
completed or failed, taking `completed`/`error` back to `processing`. -/
def allowedAmended : AgentStatus → AgentStatus → Bool
  | _, .initialized => true
  | .initialized, .processing => true
  | .completed, .processing => true
  | .error, .processing => true
  | .processing, .completed => true
  | .processing, .error => true
  | _, _ => false

/-- Claim C9, as stated, is false: executing an agent twice produces the
status transition `completed → processing`, which the claimed transition
diagram `initialized → processing → {completed | error}` does not allow. -/
theorem C9_status_transitions_counterexample :
    (AgentStatus.completed, AgentStatus.processing) ∈
      adjPairs (statusTrace "agent" (fun _ : Unit => PyView.dict []) []
        (fun _ : Unit => (Except.ok () : Except PyErr Unit))
        [.exec (), .exec ()]) ∧
    claimAllowed .completed .processing = false := by
  constructor
  · decide
  · decide

theorem execute_final_status {ι α : Type} (name : String)
    (view : α → PyView) (required : List String)
    (proc : ι → Except PyErr α) (st : AgentState) (input : ι) :
    (execute name view required proc st input).1.status = .completed ∨
    (execute name view required proc st input).1.status = .error := by
  cases hp : proc input with
  | error e => simp [execute, hp]
  | ok out => cases hv : view out <;> simp [execute, hp, hv]

theorem runOps_transitions {ι α : Type} (name : String) (view : α → PyView)
    (required : List String) (proc : ι → Except PyErr α) :
    ∀ (ops : List (AgentOp ι)) (st : AgentState),
      st.status ≠ .processing →
      ((runOps name view required proc st ops).1.status ≠ .processing ∧
       ∀ p ∈ adjPairs
          (st.status :: (runOps name view required proc st ops).2),
         allowedAmended p.1 p.2 = true)
  | [], st, h => by
    refine ⟨by simpa [runOps] using h, ?_⟩
    intro p hp
    simp [runOps, adjPairs] at hp
  | .exec input :: ops, st, h => by
    have hfin := execute_final_status name view required proc st input
    have hfin' : (execute name view required proc st input).1.status ≠
        .processing := by
      rcases hfin with h1 | h1 <;> simp [h1]
    have ih := runOps_transitions name view required proc ops
      (execute name view required proc st input).1 hfin'
    refine ⟨by simpa [runOps] using ih.1, ?_⟩
    intro p hp
    rw [show (runOps name view required proc st (.exec input :: ops)).2 =
        .processing :: (execute name view required proc st input).1.status ::
          (runOps name view required proc
            (execute name view required proc st input).1 ops).2
      from rfl, adjPairs, adjPairs] at hp
    simp only [List.mem_cons] at hp
    rcases hp with rfl | rfl | hp
    · cases hst : st.status <;> simp_all [allowedAmended]
    · rcases hfin with h1 | h1 <;> simp [h1, allowedAmended]
    · exact ih.2 p hp
  | .reset :: ops, st, h => by
    have ih := runOps_transitions name view required proc ops (reset st)
      (by simp [reset])
    refine ⟨by simpa [runOps] using ih.1, ?_⟩
    intro p hp
    rw [show (runOps name view required proc st (.reset :: ops)).2 =
        .initialized ::
          (runOps name view required proc (reset st) ops).2 from rfl,
      adjPairs] at hp
    simp only [List.mem_cons] at hp
    rcases hp with rfl | hp
    · cases hst : st.status <;> simp [allowedAmended]
    · have := ih.2 p
      rw [show (reset st).status = .initialized from rfl] at this
      exact this hp

/-- Claim C9 (amended): for every agent and every sequence of `execute` and
`reset` calls, every observed status transition is of the form
`s → processing` on entering `execute` (with `s` any non-`processing`
status: `initialized`, `completed` or `error`), `processing → completed` or
`processing → error` on leaving it, or `s → initialized` on `reset()`; and
`reset()` always yields status `initialized` with `last_error` cleared and
an empty history. -/
theorem C9_status_transitions_amended {ι α : Type} (name : String)
    (view : α → PyView) (required : List String)
    (proc : ι → Except PyErr α) (ops : List (AgentOp ι)) :
    (∀ p ∈ adjPairs (statusTrace name view required proc ops),
        allowedAmended p.1 p.2 = true) ∧
    (∀ st : AgentState,
        reset st = { status := .initialized, last_error := none,
                     history := [] }) := by
  constructor
  · intro p hp
    exact (runOps_transitions name view required proc ops initState
      (by simp [initState])).2 p hp
  · intro st
    rfl

/-- Witness for C9 (amended) on a concrete run of two executions. -/
theorem C9_status_transitions_amended_witness :
    allowedAmended .completed .processing = true :=
  (C9_status_transitions_amended "agent" (fun _ : Unit => PyView.dict []) []
    (fun _ : Unit => (Except.ok () : Except PyErr Unit))
    [.exec (), .exec ()]).1 (.completed, .processing) (by decide)

/-! ## Workflow Tracker (`WorkflowManager`, `src/pipeline/workflow_manager.py`)

Python dicts (`self.workflows`, the `defaultdict(int)` statistics) are
modelled as insertion-ordered association lists; `uuid4()` and
`datetime.now()` are modelled as explicitly passed identifier/tick values. -/

/-- Association-list lookup (`d.get(k)` / `k in d`). -/
def alGet {β : Type} : List (String × β) → String → Option β
  | [], _ => none
  | (k, v) :: r, key => if k = key then some v else alGet r key

/-- Association-list assignment (`d[k] = v`), preserving insertion order. -/
def alSet {β : Type} : List (String × β) → String → β → List (String × β)
  | [], key, v => [(key, v)]
  | (k, w) :: r, key, v =>
      if k = key then (k, v) :: r else (k, w) :: alSet r key v

/-- One Workflow Record. -/
structure Workflow where
  id : String
  status : String
  created_at : Nat
  completed_at : Option Nat
  error : Option String
deriving DecidableEq, Repr

/-- `WorkflowManager` state: `self.workflows` and `self.statistics`. -/
structure WMState where
  workflows : List (String × Workflow)
  statistics : List (String × Nat)
deriving DecidableEq, Repr

/-- `WorkflowManager()` initial state. -/
def initWM : WMState := { workflows := [], statistics := [] }

/-- `self.statistics[k]` with `defaultdict(int)` semantics. -/
def statGet (s : List (String × Nat)) (k : String) : Nat := (alGet s k).getD 0

/-- `self.statistics[k] += 1`. -/
def statInc (s : List (String × Nat)) (k : String) : List (String × Nat) :=
  alSet s k (statGet s k + 1)

/-- `WorkflowManager.create_workflow()` with the fresh uuid `wid` and the
current tick `t`. -/
def create_workflow (st : WMState) (wid : String) (t : Nat) : WMState :=
  { workflows := alSet st.workflows wid
      { id := wid, status := "created", created_at := t,
        completed_at := none, error := none }
  , statistics := statInc st.statistics "total" }

/-- `WorkflowManager.complete_workflow(wid, status, error)` at tick `t`
(the `error` field is only written when `error` is truthy — non-`None` and
non-empty). -/
def complete_workflow (st : WMState) (wid status : String)
    (error : Option String) (t : Nat) : WMState :=
  match alGet st.workflows wid with
  | none => st
  | some w =>
      { workflows := alSet st.workflows wid
          { w with
            status := status
            completed_at := some t
            error := match error with
              | some e => if e = "" then w.error else some e
              | none => w.error }
      , statistics := statInc st.statistics status }

/-- The dictionary returned by `WorkflowManager.get_statistics()`. -/
structure WMStats where
  total : Nat
  completed : Nat
  success : Nat
  error : Nat
  active_workflows : Nat
deriving DecidableEq, Repr

/-- `WorkflowManager.get_statistics()`: counters plus the count of
workflows whose status is not in `['completed', 'error']`. -/
def get_statistics (st : WMState) : WMStats :=
  { total := statGet st.statistics "total"
  , completed := statGet st.statistics "completed"
  , success := statGet st.statistics "success"
  , error := statGet st.statistics "error"
  , active_workflows :=
      (st.workflows.filter
        (fun kv => !(kv.2.status == "completed" || kv.2.status == "error"))).length }

/-- The tracker state after one workflow is created and then completed with
status `'success'` (exactly what `I_AURA_MED2D_Pipeline.process` does on a
successful request). -/
def wmAfterSuccess : WMState :=
  complete_workflow (create_workflow initWM "w1" 0) "w1" "success" none 1

/-- Claim C2 is wrong about the code (code bug): after
`complete_workflow(id, 'success')` the record's status is the terminal
`'success'` and `completed_at` is set, yet `get_statistics()` still counts
the workflow as active, because the active filter only excludes
`'completed'` and `'error'` — statuses the pipeline never ends with on
success. -/
theorem C2_success_workflow_still_counted_active :
    (alGet wmAfterSuccess.workflows "w1").map Workflow.status =
      some "success" ∧
    (alGet wmAfterSuccess.workflows "w1").map Workflow.completed_at =
      some (some 1) ∧
    (get_statistics wmAfterSuccess).success = 1 ∧
    (get_statistics wmAfterSuccess).active_workflows = 1 := by
  decide

/-! ## Stage data contracts and the Reasoning stage

Input/output records of the five stages, as built and consumed by
`I_AURA_MED2D_Pipeline.process` (`src/pipeline/unified_pipeline.py`).
Images and masks are opaque (`Img`, `Mask` type parameters).
`ReasoningAgent.process` (`src/agents/reasoning_agent.py`) is embedded in
full, parameterized by the external BioMedGPT call `answerQ`;
`RouterAgent.process` (`src/agents/router_agent.py`) is the fixed RRG
routing decision. -/

/-- Python truthiness fallback `value or default` for an optional string. -/
def pyTruthyOr (s : Option String) (default : String) : String :=
  match s with
  | some v => if v = "" then default else v
  | none => default

/-- Segmentation stage input `{image, modality}`. -/
structure SegIn (Img : Type) where
  image : Img
  modality : String

/-- Segmentation stage output dictionary (the unused `raw_segmentation`
payload is not modelled; its key still appears in the validation view). -/
structure SegOut (Mask : Type) where
  masks : List Mask
  labels : List String
  confidences : List ℚ
  modality : String
  body_regions : Option (List String)
  saved_image_path : Option String

/-- Routing stage input `{labels, modality, body_regions}`. -/
structure RoutIn where
  labels : List String
  modality : String
  body_regions : Option (List String)

/-- Routing stage output dictionary. -/
structure RoutOut where
  selected_model : String
  confidence : ℚ
  reason : String
  device : String

/-- Report stage input. -/
structure RepIn (Img : Type) where
  image : Img
  labels : List String
  modality : String
  body_regions : Option (List String)
  selected_model : String

/-- Report stage output `{findings, impression}`. -/
structure RepOut where
  findings : String
  impression : String

/-- The `report` value handed to the reasoning stage: either a
findings/impression mapping or a plain string. -/
inductive ReasReport where
  | dictR (findings impression : String)
  | strR (text : String)

/-- Reasoning stage input `{image, report, question, task}`. -/
structure ReasIn (Img : Type) where
  image : Img
  report : ReasReport
  question : Option String
  task : String

/-- Reasoning stage output `{answer, confidence, reasoning}`. -/
structure ReasOut where
  answer : String
  confidence : ℚ
  reasoning : String

/-- Validation stage input (the fields of it that
`ValidationAgent.process` reads). -/
structure ValIn where
  findings : String
  impression : String
  labels : List String
  modality : String

/-- The fixed fallback result of `ReasoningAgent.process`'s `except`
handler. -/
def reasoningFallback : ReasOut :=
  { answer := "Clinical reasoning temporarily unavailable."
  , confidence := 1/2
  , reasoning := "Reasoning error" }

/-- `ReasoningAgent.process(input)`: validate the question, build the
report text, call BioMedGPT (`answerQ`); any internal fault — invalid
question, empty report, failed call — degrades to the fixed fallback.
The method never raises. -/
def reasoningCore {Img : Type}
    (answerQ : String → String → Except PyErr String)
    (input : ReasIn Img) : ReasOut :=
  match input.question with
  | none => reasoningFallback
  | some q =>
    if (pyStripStr q).data = [] then reasoningFallback
    else
      let report_text : String :=
        match input.report with
        | .dictR f i => pyStripStr (pyStripStr f ++ "\n\n" ++ pyStripStr i)
        | .strR s => pyStripStr s
      if report_text.data = [] then reasoningFallback
      else
        match answerQ (pyStripStr q) report_text with
        | .ok a =>
            { answer := a
            , confidence := 9/10
            , reasoning := "BioMedGPT clinical QA based on RRG-generated report" }
        | .error _ => reasoningFallback

/-- `RouterAgent.process`: always selects RRG. -/
def routerProcess (device : String) (_input : RoutIn) : RoutOut :=
  { selected_model := "RRG"
  , confidence := 1
  , reason := "RRG is the dedicated radiology report generator"
  , device := device }

/-- Validation view of a segmentation output. -/
def segView {Mask : Type} (_ : SegOut Mask) : PyView :=
  .dict ["masks", "labels", "confidences", "modality", "body_regions",
         "saved_image_path", "raw_segmentation"]

/-- Validation view of a routing output. -/
def routView (_ : RoutOut) : PyView :=
  .dict ["selected_model", "confidence", "reason", "device"]

/-- Validation view of a report output. -/
def repView (_ : RepOut) : PyView := .dict ["findings", "impression"]

/-- Validation view of a reasoning output. -/
def reasView (_ : ReasOut) : PyView :=
  .dict ["answer", "confidence", "reasoning"]

/-- Validation view of a validation-stage output. -/
def valView (_ : ValOutput) : PyView :=
  .dict ["is_valid", "warnings", "errors", "confidence"]

/-! ## Pipeline Controller (`I_AURA_MED2D_Pipeline.process`,
`src/pipeline/unified_pipeline.py`) -/

/-- The controller's state: the workflow tracker plus the five agents. -/
structure PipeState where
  wm : WMState
  segA : AgentState
  routA : AgentState
  repA : AgentState
  reasA : AgentState
  valA : AgentState

/-- Freshly constructed pipeline. -/
def initPipe : PipeState :=
  { wm := initWM, segA := initState, routA := initState, repA := initState,
    reasA := initState, valA := initState }

/-- `result['segmentation']` of the assembled Pipeline Result. -/
structure SegSummary (Mask : Type) where
  masks : List Mask
  labels : List String
  confidences : List ℚ
  body_regions : Option (List String)

/-- `result['routing']` of the assembled Pipeline Result. -/
structure RoutSummary where
  selected_model : String
  confidence : ℚ
  reason : String

/-- `result['metadata']` (timing fields not modelled). -/
structure PipeMetadata where
  workflow_id : String
  modality : String
  pipeline_version : String

/-- The assembled Pipeline Result. -/
structure PipelineResult (Mask : Type) where
  segmentation : SegSummary Mask
  routing : RoutSummary
  report : ExecResult RepOut
  reasoning : Option (ExecResult ReasOut)
  validation : Option (ExecResult ValOutput)
  metadata : PipeMetadata

/-- `{'image': image, 'modality': modality or 'unknown'}`. -/
def segInputOf {Img : Type} (image : Img) (modality : Option String) :
    SegIn Img :=
  { image := image, modality := pyTruthyOr modality "unknown" }

/-- The routing input built from the segmentation result
(`.get(key, default)` on the merged result dictionary). -/
def routInputOf {Mask : Type} (segRes : ExecResult (SegOut Mask)) : RoutIn :=
  { labels := (segRes.output.map SegOut.labels).getD []
  , modality := (segRes.output.map SegOut.modality).getD "unknown"
  , body_regions := (segRes.output.map SegOut.body_regions).getD (some []) }

/-- `routing_result.get('selected_model', 'BiomedGPT')`. -/
def selectedModelOf (routRes : ExecResult RoutOut) : String :=
  (routRes.output.map RoutOut.selected_model).getD "BiomedGPT"

/-- The report input built from the segmentation and routing results. -/
def repInputOf {Img Mask : Type} (image : Img)
    (segRes : ExecResult (SegOut Mask)) (routRes : ExecResult RoutOut) :
    RepIn Img :=
  { image := image
  , labels := (segRes.output.map SegOut.labels).getD []
  , modality := (segRes.output.map SegOut.modality).getD "unknown"
  , body_regions := (segRes.output.map SegOut.body_regions).getD (some [])
  , selected_model := selectedModelOf routRes }

/-- The reasoning input: the report result (whose `findings`/`impression`
are read with `.get(key, '')`), the user query as `question`, and the task
chosen by the truthiness of `user_query`. -/
def reasInputOf {Img : Type} (image : Img) (repRes : ExecResult RepOut)
    (user_query : Option String) : ReasIn Img :=
  { image := image
  , report := .dictR ((repRes.output.map RepOut.findings).getD "")
      ((repRes.output.map RepOut.impression).getD "")
  , question := user_query
  , task := match user_query with
      | some q => if q = "" then "explain" else "qa"
      | none => "explain" }

/-- The validation input built from the report and segmentation results. -/
def valInputOf {Mask : Type} (segRes : ExecResult (SegOut Mask))
    (repRes : ExecResult RepOut) : ValIn :=
  { findings := (repRes.output.map RepOut.findings).getD ""
  , impression := (repRes.output.map RepOut.impression).getD ""
  , labels := (segRes.output.map SegOut.labels).getD []
  , modality := (segRes.output.map SegOut.modality).getD "unknown" }

/-- `I_AURA_MED2D_Pipeline.process(image, modality, user_query,
enable_reasoning, enable_validation)`.

External collaborators are explicit parameters: `segProc` and `repProc`
are the segmentation and report stages' `process` (they wrap external
models), `device` fixes the router's reported device, `answerQ` is the
BioMedGPT call used by the embedded `ReasoningAgent.process`, and
`validators` are the loaded knowledge-graph validators used by the
embedded `ValidationAgent.process`.  `wid` is the fresh uuid, `t0`/`t1`
the creation/completion ticks.  A raised `RuntimeError` is the `.error`
return value; the source re-raises it after marking the workflow. -/
def pipelineProcess {Img Mask : Type}
    (segProc : SegIn Img → Except PyErr (SegOut Mask)) (device : String)
    (repProc : RepIn Img → Except PyErr RepOut)
    (answerQ : String → String → Except PyErr String)
    (validators : List KGResult)
    (wid : String) (t0 t1 : Nat) (pst : PipeState)
    (image : Img) (modality : Option String) (user_query : Option String)
    (enable_reasoning enable_validation : Bool) :
    PipeState × Except PyErr (PipelineResult Mask) :=
  let wm1 := create_workflow pst.wm wid t0
  let seg := execute "SegmentationAgent" segView [] segProc pst.segA
    (segInputOf image modality)
  if seg.2.meta.status ≠ "success" then
    ({ pst with
        wm := complete_workflow wm1 wid "error" (some "Segmentation failed") t1
        segA := seg.1 },
     .error "Segmentation failed")
  else
    let rout := execute "RouterAgent" routView []
      (fun i => .ok (routerProcess device i)) pst.routA (routInputOf seg.2)
    if rout.2.meta.status ≠ "success" then
      ({ pst with
          wm := complete_workflow wm1 wid "error" (some "Routing failed") t1
          segA := seg.1, routA := rout.1 },
       .error "Routing failed")
    else
      let rep := execute "ReportAgent" repView [] repProc pst.repA
        (repInputOf image seg.2 rout.2)
      if rep.2.meta.status ≠ "success" then
        ({ pst with
            wm := complete_workflow wm1 wid "error"
              (some "Report generation failed") t1
            segA := seg.1, routA := rout.1, repA := rep.1 },
         .error "Report generation failed")
      else
        let reas := if enable_reasoning then
            some (execute "ReasoningAgent" reasView []
              (fun i => .ok (reasoningCore answerQ i)) pst.reasA
              (reasInputOf image rep.2 user_query))
          else none
        let val := if enable_validation then
            some (execute "ValidationAgent" valView ["is_valid", "confidence"]
              (fun vi => .ok (validation_process vi.findings vi.impression
                vi.labels validators)) pst.valA (valInputOf seg.2 rep.2))
          else none
        ({ wm := complete_workflow wm1 wid "success" none t1
         , segA := seg.1, routA := rout.1, repA := rep.1
         , reasA := ((reas.map Prod.fst).getD pst.reasA)
         , valA := ((val.map Prod.fst).getD pst.valA) },
         .ok
          { segmentation :=
              { masks := (seg.2.output.map SegOut.masks).getD []
              , labels := (seg.2.output.map SegOut.labels).getD []
              , confidences := (seg.2.output.map SegOut.confidences).getD []
              , body_regions :=
                  (seg.2.output.map SegOut.body_regions).getD (some []) }
          , routing :=
              { selected_model := selectedModelOf rout.2
              , confidence := (rout.2.output.map RoutOut.confidence).getD 0
              , reason := (rout.2.output.map RoutOut.reason).getD "" }
          , report := rep.2
          , reasoning := reas.map Prod.snd
          , validation := val.map Prod.snd
          , metadata :=
              { workflow_id := wid
              , modality := (seg.2.output.map SegOut.modality).getD "unknown"
              , pipeline_version := "0.1.0" } })

theorem alGet_alSet {β : Type} (l : List (String × β)) (k : String) (v : β) :
    alGet (alSet l k v) k = some v := by
  induction l with
  | nil => simp [alSet, alGet]
  | cons kv r ih =>
    obtain ⟨k', w⟩ := kv
    by_cases hk : k' = k
    · simp [alSet, alGet, hk]
    · simp [alSet, alGet, hk, ih]

theorem complete_after_create (wm : WMState) (wid : String) (t0 t1 : Nat)
    (status : String) (err : Option String) :
    alGet (complete_workflow (create_workflow wm wid t0) wid status
        err t1).workflows wid =
      some { id := wid, status := status, created_at := t0,
             completed_at := some t1,
             error := match err with
               | some e => if e = "" then none else some e
               | none => none } := by
  unfold create_workflow complete_workflow
  simp only [alGet_alSet]

theorem execute_ok_empty_required {ι α : Type} (name : String)
    (view : α → PyView) (proc : ι → Except PyErr α) (st : AgentState)
    (input : ι) (out : α) (keys : List String)
    (hp : proc input = .ok out) (hv : view out = .dict keys) :
    execute name view [] proc st input =
      ({ status := .completed, last_error := none,
         history := st.history ++ [⟨"success", none⟩] },
       { output := some out,
         meta := { agent_name := name, status := "success", error := none,
                   validation := some (validate (.dict keys) []) } }) := by
  simp only [execute, hp, hv]
  rfl

theorem reasoningCore_fallback {Img : Type}
    (answerQ : String → String → Except PyErr String) (errm : PyErr)
    (h : ∀ q c, answerQ q c = .error errm) (input : ReasIn Img) :
    reasoningCore answerQ input = reasoningFallback := by
  obtain ⟨image, report, question, task⟩ := input
  cases question with
  | none => rfl
  | some q =>
    by_cases h1 : (pyStripStr q).data = []
    · simp [reasoningCore, h1]
    · cases report with
      | strR s =>
        by_cases h2 : (pyStripStr s).data = []
        · simp [reasoningCore, h1, h2]
        · simp [reasoningCore, h1, h2, h]
      | dictR f i =>
        by_cases h2 :
            (pyStripStr (pyStripStr f ++ "\n\n" ++ pyStripStr i)).data = []
        · simp [reasoningCore, h1, h2]
        · simp [reasoningCore, h1, h2, h]

/-- Claim C4: whenever the segmentation stage's execution metadata status is
not `'success'`, `process` surfaces a pipeline failure (no response) and the
Workflow Record ends with status `'error'`, its error message set, and
`completed_at` non-null. -/
theorem C4_segmentation_failure_aborts {Img Mask : Type}
    (segProc : SegIn Img → Except PyErr (SegOut Mask)) (device : String)
    (repProc : RepIn Img → Except PyErr RepOut)
    (answerQ : String → String → Except PyErr String)
    (validators : List KGResult) (wid : String) (t0 t1 : Nat)
    (pst : PipeState) (image : Img) (modality : Option String)
    (user_query : Option String) (er ev : Bool)
    (h : (execute "SegmentationAgent" segView [] segProc pst.segA
        (segInputOf image modality)).2.meta.status ≠ "success") :
    (pipelineProcess segProc device repProc answerQ validators wid t0 t1 pst
        image modality user_query er ev).2 = .error "Segmentation failed" ∧
    alGet (pipelineProcess segProc device repProc answerQ validators wid t0 t1
        pst image modality user_query er ev).1.wm.workflows wid =
      some { id := wid, status := "error", created_at := t0,
             completed_at := some t1,
             error := some "Segmentation failed" } := by
  constructor
  · simp only [pipelineProcess]
    rw [if_pos h]
  · simp only [pipelineProcess]
    rw [if_pos h]
    rw [show ({ pst with
        wm := complete_workflow (create_workflow pst.wm wid t0) wid "error"
          (some "Segmentation failed") t1
        segA := (execute "SegmentationAgent" segView [] segProc pst.segA
          (segInputOf image modality)).1 } : PipeState).wm =
      complete_workflow (create_workflow pst.wm wid t0) wid "error"
        (some "Segmentation failed") t1 from rfl]
    rw [complete_after_create]
    simp

/-- Witness for C4 with a concretely faulting segmentation stage. -/
theorem C4_segmentation_failure_aborts_witness :
    (pipelineProcess (fun _ : SegIn Unit =>
        (Except.error "IMIS crashed" : Except PyErr (SegOut Unit))) "cpu"
        (fun _ => .ok { findings := "f", impression := "i" })
        (fun _ _ => .ok "a") [] "w" 0 1 initPipe () none none true true).2 =
      .error "Segmentation failed" ∧
    alGet (pipelineProcess (fun _ : SegIn Unit =>
        (Except.error "IMIS crashed" : Except PyErr (SegOut Unit))) "cpu"
        (fun _ => .ok { findings := "f", impression := "i" })
        (fun _ _ => .ok "a") [] "w" 0 1 initPipe () none none
        true true).1.wm.workflows "w" =
      some { id := "w", status := "error", created_at := 0,
             completed_at := some 1, error := some "Segmentation failed" } :=
  C4_segmentation_failure_aborts _ "cpu" _ _ [] "w" 0 1 initPipe () none none
    true true (by simp [execute])

/-- Claim C5: with reasoning enabled and the fatal stages succeeding, an
internal fault of the reasoning stage (the BioMedGPT call failing) does not
abort the pipeline: the request completes, the Workflow Record ends
`'success'`, and the reasoning result is the fixed fallback — answer
`"Clinical reasoning temporarily unavailable."` and confidence `0.5` (not
`0`, not the success-path `0.9`). -/
theorem C5_reasoning_fault_degrades_gracefully {Img Mask : Type}
    (segProc : SegIn Img → Except PyErr (SegOut Mask)) (device : String)
    (repProc : RepIn Img → Except PyErr RepOut)
    (answerQ : String → String → Except PyErr String) (errm : PyErr)
    (validators : List KGResult) (wid : String) (t0 t1 : Nat)
    (pst : PipeState) (image : Img) (modality : Option String)
    (user_query : Option String) (ev : Bool)
    (hseg : ∀ i, ∃ o, segProc i = Except.ok o)
    (hrep : ∀ i, ∃ o, repProc i = Except.ok o)
    (hq : ∀ q c, answerQ q c = Except.error errm) :
    ∃ (res : PipelineResult Mask) (r : ExecResult ReasOut),
      (pipelineProcess segProc device repProc answerQ validators wid t0 t1 pst
          image modality user_query true ev).2 = .ok res ∧
      res.reasoning = some r ∧
      r.output = some reasoningFallback ∧
      reasoningFallback.answer = "Clinical reasoning temporarily unavailable." ∧
      reasoningFallback.confidence = 1/2 ∧
      alGet (pipelineProcess segProc device repProc answerQ validators wid t0
          t1 pst image modality user_query true ev).1.wm.workflows wid =
        some { id := wid, status := "success", created_at := t0,
               completed_at := some t1, error := none } := by
  obtain ⟨so, hso⟩ := hseg (segInputOf image modality)
  have hsegE := execute_ok_empty_required "SegmentationAgent" segView segProc
    pst.segA (segInputOf image modality) so _ hso rfl
  have hs1 : (execute "SegmentationAgent" segView [] segProc pst.segA
      (segInputOf image modality)).2.meta.status = "success" := by
    rw [hsegE]
  have hs2 : (execute "RouterAgent" routView []
      (fun i => .ok (routerProcess device i)) pst.routA
      (routInputOf (execute "SegmentationAgent" segView [] segProc pst.segA
        (segInputOf image modality)).2)).2.meta.status = "success" := by
    rw [execute_ok_empty_required "RouterAgent" routView
      (fun i => .ok (routerProcess device i)) pst.routA _
      (routerProcess device _) _ rfl rfl]
  obtain ⟨po, hpo⟩ := hrep (repInputOf image
    (execute "SegmentationAgent" segView [] segProc pst.segA
      (segInputOf image modality)).2
    (execute "RouterAgent" routView []
      (fun i => .ok (routerProcess device i)) pst.routA
      (routInputOf (execute "SegmentationAgent" segView [] segProc pst.segA
        (segInputOf image modality)).2)).2)
  have hs3 : (execute "ReportAgent" repView [] repProc pst.repA
      (repInputOf image
        (execute "SegmentationAgent" segView [] segProc pst.segA
          (segInputOf image modality)).2
        (execute "RouterAgent" routView []
          (fun i => .ok (routerProcess device i)) pst.routA
          (routInputOf (execute "SegmentationAgent" segView [] segProc
            pst.segA (segInputOf image modality)).2)).2)).2.meta.status =
      "success" := by
    rw [execute_ok_empty_required "ReportAgent" repView repProc pst.repA _
      po _ hpo rfl]
  simp only [pipelineProcess]
  rw [if_neg (by simp [hs1]), if_neg (by simp [hs2]), if_neg (by simp [hs3])]
  refine ⟨_, _, rfl, rfl, ?_, rfl, rfl, ?_⟩
  · rw [execute_ok_empty_required "ReasoningAgent" reasView
      (fun i => Except.ok (reasoningCore answerQ i)) pst.reasA _
      (reasoningCore answerQ _) _ rfl rfl]
    rw [reasoningCore_fallback answerQ errm hq]
  · show alGet (complete_workflow (create_workflow pst.wm wid t0) wid
      "success" none t1).workflows wid = _
    rw [complete_after_create]

/-- Witness for C5 on a concrete request whose BioMedGPT call fails. -/
theorem C5_reasoning_fault_degrades_gracefully_witness :
    ∃ (res : PipelineResult Unit) (r : ExecResult ReasOut),
      (pipelineProcess (fun _ : SegIn Unit =>
          (Except.ok
            { masks := [], labels := ["left lung"],
              confidences := [1], modality := "xray",
              body_regions := some ["chest"], saved_image_path := none } :
            Except PyErr (SegOut Unit))) "cpu"
          (fun _ => .ok
            { findings := "The left lung is clear.",
              impression := "Normal." })
          (fun _ _ => .error "api down") [] "w" 0 1 initPipe () none
          (some "What is wrong?") true true).2 = .ok res ∧
      res.reasoning = some r ∧
      r.output = some reasoningFallback ∧
      reasoningFallback.answer = "Clinical reasoning temporarily unavailable." ∧
      reasoningFallback.confidence = 1/2 ∧
      alGet (pipelineProcess (fun _ : SegIn Unit =>
          (Except.ok
            { masks := [], labels := ["left lung"],
              confidences := [1], modality := "xray",
              body_regions := some ["chest"], saved_image_path := none } :
            Except PyErr (SegOut Unit))) "cpu"
          (fun _ => .ok
            { findings := "The left lung is clear.",
              impression := "Normal." })
          (fun _ _ => .error "api down") [] "w" 0 1 initPipe () none
          (some "What is wrong?") true true).1.wm.workflows "w" =
        some { id := "w", status := "success", created_at := 0,
               completed_at := some 1, error := none } :=
  C5_reasoning_fault_degrades_gracefully _ "cpu" _ _ "api down" [] "w" 0 1
    initPipe () none (some "What is wrong?") true
    (fun _ => ⟨_, rfl⟩) (fun _ => ⟨_, rfl⟩) (fun _ _ => rfl)

/-! ## Anatomical label extraction and body regions
(`src/utils/label_extraction.py`, `SegmentationAgent._detect_body_regions`) -/

/-- `ANATOMICAL_LABEL_MAP`, in source order. -/
def ANATOMICAL_LABEL_MAP : List (String × List String) :=
  [ ("lung", ["lung", "lungs", "pulmonary", "pneumonia"])
  , ("heart", ["heart", "cardiac", "myocardium"])
  , ("rib", ["rib", "ribs", "ribcage"])
  , ("chest", ["chest", "thorax", "thoracic"])
  , ("liver", ["liver", "hepatic"])
  , ("spleen", ["spleen", "splenic"])
  , ("kidney", ["kidney", "renal", "kidneys"])
  , ("kidney_right", ["kidney_right", "right_kidney", "right renal"])
  , ("kidney_left", ["kidney_left", "left_kidney", "left renal"])
  , ("pancreas", ["pancreas", "pancreatic"])
  , ("stomach", ["stomach", "gastric"])
  , ("intestine", ["intestine", "bowel", "intestinal"])
  , ("bladder", ["bladder", "urinary"])
  , ("uterus", ["uterus", "uterine"])
  , ("prostate", ["prostate", "prostatic"])
  , ("brain", ["brain", "cerebral", "cranial"])
  , ("skull", ["skull", "cranium"])
  , ("knee", ["knee", "knees"])
  , ("hip", ["hip", "hips", "pelvic"])
  , ("wrist", ["wrist", "wrists"])
  , ("shoulder", ["shoulder", "shoulders"]) ]

/-- `extract_anatomical_labels(labels)`: lowercase each label, map it to the
first table entry one of whose variants is a substring of it (keeping the
canonical name), otherwise keep `normalize_label(label)`; deduplicate
preserving first-seen order. -/
def extract_anatomical_labels (labels : List String) : List String :=
  (labels.map pyLower).foldl
    (fun acc label =>
      match ANATOMICAL_LABEL_MAP.find?
          (fun e => e.2.any (fun v => hasSub label.data v.data)) with
      | some e => if acc.contains e.1 then acc else acc ++ [e.1]
      | none =>
          if acc.contains (normalize_label label) then acc
          else acc ++ [normalize_label label])
    []

/-- The `region_mapping` table bound (and never used) by
`SegmentationAgent._detect_body_regions`. -/
def region_mapping : List (String × List String) :=
  [ ("chest", ["lung", "heart", "rib", "thorax", "pleura", "mediastinum"])
  , ("abdomen", ["liver", "kidney", "spleen", "pancreas", "gallbladder",
                 "bowel"])
  , ("head", ["brain", "skull", "ventricle", "cerebrum"])
  , ("extremity", ["knee", "hip", "wrist", "shoulder", "femur", "tibia"]) ]

/-- `SegmentationAgent._detect_body_regions(labels)`: the function body
binds `region_mapping` and then the source file ends — there is no
`return` statement, so the call returns Python `None` for every input. -/
def detect_body_regions (_labels : List String) : Option (List String) :=
  none

/-- The raw results of `self.model.segment(image, modality)` (external
IMIS-Bench collaborator). -/
structure RawSeg (Mask : Type) where
  masks : List Mask
  labels : List String
  confidences : List ℚ

/-- The model-backed path of `SegmentationAgent.process`: normalize and
extract labels, filter by confidence, detect body regions, and assemble the
output dictionary (the saved-image path is an opaque parameter; the
`raw_segmentation` payload is not modelled). -/
def segProcessModelPath {Mask : Type} (raw : RawSeg Mask) (modality : String)
    (confidence_threshold : ℚ) (saved_path : Option String) : SegOut Mask :=
  let labels := normalize_labels raw.labels
  let anatomical_labels := extract_anatomical_labels labels
  let filtered := filter_by_confidence raw.masks anatomical_labels
    raw.confidences confidence_threshold
  { masks := filtered.masks
  , labels := filtered.labels
  , confidences := filtered.confidences
  , modality := modality
  , body_regions := detect_body_regions filtered.labels
  , saved_image_path := saved_path }

/-- Claim C10: `_detect_body_regions` returns `None` for every list of
labels (its body defines the region-keyword mapping but never returns), so
on the model-backed segmentation path the `body_regions` value of the stage
output is `None` rather than a list of region tags. -/
theorem C10_detect_body_regions_returns_none :
    (∀ labels : List String, detect_body_regions labels = none) ∧
    (∀ (Mask : Type) (raw : RawSeg Mask) (modality : String)
        (threshold : ℚ) (saved_path : Option String),
      (segProcessModelPath raw modality threshold saved_path).body_regions =
        none) :=
  ⟨fun _ => rfl, fun _ _ _ _ _ => rfl⟩

end AuraMed
